import Mathlib

/-!
Verification development for the `freeze_room` Synapse module
(`src/freeze_room/__init__.py` and `src/freeze_room/_constants.py`).

The module is a policy engine deciding whether candidate room events are
allowed, denied, or allowed with a rewrite, and emitting compensating state
events (power-level updates, join-rule resets, frozen markers).

The embedding mirrors the Python source:
* JSON-like event content is modelled by `PyVal`; Python dictionaries
  (`PyDict`) are association sequences kept in sorted key order, so that
  Python dict equality (which ignores insertion order) coincides with
  pointwise equality.
* Python runtime errors (`KeyError`, `AttributeError`, `TypeError`) are
  modelled with `Except String`.
* External collaborators (the module API that qualifies user IDs) are passed
  in as function parameters.
-/

namespace FreezeRoom

mutual

/-- A Python/JSON value as it appears in event content. -/
inductive PyVal where
  | null : PyVal
  | bool : Bool → PyVal
  | int : Int → PyVal
  | str : String → PyVal
  | dict : PyDict → PyVal
  | list : PyList → PyVal

/-- A Python dictionary: a key/value sequence kept in sorted key order with
distinct keys (maintained by `dset` / `ddel` / `dmk`). -/
inductive PyDict where
  | nil : PyDict
  | cons : String → PyVal → PyDict → PyDict

/-- A Python list of values. -/
inductive PyList where
  | nil : PyList
  | cons : PyVal → PyList → PyList

end

/- Python `==` (`pyEq`, `pyEqDict`, `pyEqList`). Mirrors CPython semantics on
this fragment: `bool` is an `int` subtype, so `True == 1` and `False == 0`;
dictionaries compare pointwise (order-insensitively in Python; pointwise here
thanks to the sorted-key representation); lists compare elementwise. -/
mutual

def pyEq : PyVal → PyVal → Bool
  | PyVal.null, PyVal.null => true
  | PyVal.bool x, PyVal.bool y => x == y
  | PyVal.bool x, PyVal.int n => (if x then (1 : Int) else 0) == n
  | PyVal.int n, PyVal.bool x => n == (if x then (1 : Int) else 0)
  | PyVal.int x, PyVal.int y => x == y
  | PyVal.str x, PyVal.str y => x == y
  | PyVal.dict d1, PyVal.dict d2 => pyEqDict d1 d2
  | PyVal.list l1, PyVal.list l2 => pyEqList l1 l2
  | _, _ => false

def pyEqDict : PyDict → PyDict → Bool
  | PyDict.nil, PyDict.nil => true
  | PyDict.cons k1 v1 r1, PyDict.cons k2 v2 r2 =>
    k1 == k2 && pyEq v1 v2 && pyEqDict r1 r2
  | _, _ => false

def pyEqList : PyList → PyList → Bool
  | PyList.nil, PyList.nil => true
  | PyList.cons a as1, PyList.cons b bs1 => pyEq a b && pyEqList as1 bs1
  | _, _ => false

end

/-- Lexicographic order on character sequences, by code point. -/
def charsLt : List Char → List Char → Bool
  | [], [] => false
  | [], _ :: _ => true
  | _ :: _, [] => false
  | c1 :: r1, c2 :: r2 =>
    if c1.toNat < c2.toNat then true
    else if c2.toNat < c1.toNat then false
    else charsLt r1 r2

/-- The canonical key order of the dictionary representation (lexicographic by
code point). Any fixed total order works: Python dict equality ignores
insertion order, so dictionaries are kept sorted by this order to make
equality pointwise. -/
def strLt (a b : String) : Bool := charsLt a.toList b.toList

/-- Dictionary lookup (`d[k]` / `d.get(k)`). -/
def dget (k : String) : PyDict → Option PyVal
  | PyDict.nil => none
  | PyDict.cons k2 v rest => if k = k2 then some v else dget k rest

/-- Dictionary update (`d[k] = v`), keeping the sorted-key representation. -/
def dset (k : String) (v : PyVal) : PyDict → PyDict
  | PyDict.nil => PyDict.cons k v PyDict.nil
  | PyDict.cons k2 v2 rest =>
    if k = k2 then PyDict.cons k v rest
    else if strLt k k2 then PyDict.cons k v (PyDict.cons k2 v2 rest)
    else PyDict.cons k2 v2 (dset k v rest)

/-- Dictionary deletion (`del d[k]` after an `in` check, or `d.pop(k, ...)`). -/
def ddel (k : String) : PyDict → PyDict
  | PyDict.nil => PyDict.nil
  | PyDict.cons k2 v rest =>
    if k2 = k then ddel k rest else PyDict.cons k2 v (ddel k rest)

/-- Build a dictionary literal in the canonical sorted representation. -/
def dmk (l : List (String × PyVal)) : PyDict :=
  l.foldl (fun acc kv => dset kv.1 kv.2 acc) PyDict.nil

/-- The keys of a dictionary, in order. -/
def dkeys : PyDict → List String
  | PyDict.nil => []
  | PyDict.cons k _ rest => k :: dkeys rest

/-- The number of entries of a dictionary. -/
def dlen : PyDict → Nat
  | PyDict.nil => 0
  | PyDict.cons _ _ rest => dlen rest + 1

/-- Python `unfreeze` from the source: a deep copy turning `frozendict`s into
plain dicts, leaving scalars alone. A deep copy returns a value equal to its
argument, and this model has no object identity or in-place mutation, so the
copy is the identity. -/
def unfreeze (v : PyVal) : PyVal := v

/-- `unfreeze` applied to an event content (a dictionary). -/
def unfreezeDict (d : PyDict) : PyDict := d

theorem dget_dset_self (k : String) (v : PyVal) :
    (d : PyDict) → dget k (dset k v d) = some v
  | PyDict.nil => by simp [dget, dset]
  | PyDict.cons k2 v2 rest => by
    by_cases h : k = k2
    · simp [dset, h, dget]
    · by_cases h2 : strLt k k2
      · simp [dset, h, h2, dget]
      · simp [dset, h, h2, dget, dget_dset_self k v rest]

theorem dget_dset_ne (k k2 : String) (v : PyVal) (hne : k ≠ k2) :
    (d : PyDict) → dget k (dset k2 v d) = dget k d
  | PyDict.nil => by simp [dget, dset, hne]
  | PyDict.cons k3 v3 rest => by
    by_cases h : k2 = k3
    · subst h
      simp [dset, dget, hne]
    · by_cases h2 : strLt k2 k3
      · simp [dset, h, h2, dget, hne]
      · by_cases h3 : k = k3 <;>
          simp [dset, h, h2, dget, h3, dget_dset_ne k k2 v hne rest]

/-! ### Constants (`_constants.py` and module-level constants) -/

def FROZEN_STATE_TYPE : String := "org.matrix.room.frozen"

namespace EventTypes

def Member : String := "m.room.member"

def JoinRules : String := "m.room.join_rules"

def PowerLevels : String := "m.room.power_levels"

def Message : String := "m.room.message"

end EventTypes

namespace Membership

def INVITE : String := "invite"

def JOIN : String := "join"

def LEAVE : String := "leave"

end Membership

/-! ### Events, room state, configuration -/

/-- The read-only view of a Synapse `EventBase` that the module consumes. -/
structure Event where
  type : String
  sender : String
  /-- `none` when the event is not a state event (`is_state()` is false). -/
  stateKey : Option String
  content : PyDict
  roomId : String

/-- `event.is_state()`. -/
def Event.isState (e : Event) : Bool := e.stateKey.isSome

/-- `event.membership`, i.e. `event.content["membership"]`. The source raises
`KeyError` when the key is absent; absence is modelled as `PyVal.null`, which
matches no membership string. -/
def Event.membership (e : Event) : PyVal :=
  (dget "membership" e.content).getD PyVal.null

/-- The state snapshot: one event per (event type, state key) pair. -/
abbrev StateMap := List ((String × String) × Event)

/-- `state_events.get((type, key))`. -/
def sget (st : StateMap) (k : String × String) : Option Event :=
  match st.find? (fun entry => entry.1.1 == k.1 && entry.1.2 == k.2) with
  | some entry => some entry.2
  | none => none

/-- `FreezeRoomConfig`. -/
structure FreezeRoomConfig where
  unfreeze_blacklist : List String := []
  promote_moderators : Bool := false

/-- An event authored through `api.create_and_send_event_into_room`. -/
structure Sent where
  roomId : String
  sender : String
  type : String
  content : PyDict
  stateKey : String

/-- The value of a handler call: the `(allow, replacement)` decision returned
to Synapse together with the compensating events sent into the room. -/
structure Outcome where
  allow : Bool
  rewrite : Option Event
  sent : List Sent

/-- Everything after the first colon of a character sequence. -/
def afterColon : List Char → List Char
  | [] => []
  | c :: rest => if c = ':' then rest else afterColon rest

/-- The domain of a Matrix user ID (`UserID.from_string(user_id).domain`):
everything after the first colon. Identity parsing is an external collaborator;
its validation errors are out of scope, so the parse is total here. -/
def domainOf (userId : String) : String :=
  String.mk (afterColon userId.toList)

/-! ### `_on_frozen_state_change` -/

/-- The idempotence test of `_on_frozen_state_change`:
`current_frozen_state is not None and current_frozen_state.content.get("frozen") == frozen`. -/
def currentFrozenMatches (stateEvents : StateMap) (frozen : Bool) : Bool :=
  match sget stateEvents (FROZEN_STATE_TYPE, "") with
  | some currentFrozenState =>
    pyEq ((dget "frozen" currentFrozenState.content).getD PyVal.null) (PyVal.bool frozen)
  | none => false

/-- The join-rules compensation block of `_on_frozen_state_change`: when
freezing a room whose join rule is "public" or whose join-rules event is
absent, emit a join-rules event forcing `join_rule = "invite"`. Reading
`content["join_rule"]` raises `KeyError` when the key is missing. -/
def joinRulesReset (event : Event) (stateEvents : StateMap) (frozen : Bool) :
    Except String (List Sent) :=
  if frozen = true then
    match sget stateEvents (EventTypes.JoinRules, "") with
    | none =>
      Except.ok [⟨event.roomId, event.sender, EventTypes.JoinRules,
        dmk [("join_rule", PyVal.str "invite")], ""⟩]
    | some currentJoinRules =>
      match dget "join_rule" currentJoinRules.content with
      | none => Except.error "KeyError: join_rule"
      | some v =>
        if pyEq v (PyVal.str "public") then
          Except.ok [⟨event.roomId, event.sender, EventTypes.JoinRules,
            dmk [("join_rule", PyVal.str "invite")], ""⟩]
        else Except.ok []
  else Except.ok []

/-- The unfreeze branch of the power-level computation:
`users = content.setdefault("users", {}); users[event.sender] = 100;
content["users_default"] = 0`. Item assignment on a non-dict `users` value
raises `TypeError`. -/
def unfreezePowerLevels (sender : String) (content : PyDict) : Except String PyDict :=
  match dget "users" content with
  | none =>
    Except.ok (dset "users_default" (PyVal.int 0)
      (dset "users" (PyVal.dict (dset sender (PyVal.int 100) PyDict.nil)) content))
  | some (PyVal.dict users) =>
    Except.ok (dset "users_default" (PyVal.int 0)
      (dset "users" (PyVal.dict (dset sender (PyVal.int 100) users)) content))
  | some _ => Except.error "TypeError: item assignment on non-dict users"

/-- The loop of the freeze branch: keep only the user entries whose level
compares equal to 100 (`if level == 100: users[user] = level`). -/
def keepLevel100 : PyDict → PyDict
  | PyDict.nil => PyDict.nil
  | PyDict.cons k v rest =>
    if pyEq v (PyVal.int 100) then PyDict.cons k v (keepLevel100 rest)
    else keepLevel100 rest

/-- The freeze branch of the power-level computation:
`content["users_default"] = 100`, then keep only the `users` entries whose
level compares equal to 100. Reading `content["users"]` raises `KeyError`
when absent, and `.items()` fails on a non-dict value. -/
def freezePowerLevels (content : PyDict) : Except String PyDict :=
  let content1 := dset "users_default" (PyVal.int 100) content
  match dget "users" content1 with
  | none => Except.error "KeyError: users"
  | some (PyVal.dict users) =>
    Except.ok (dset "users" (PyVal.dict (keepLevel100 users)) content1)
  | some _ => Except.error "TypeError: items on non-dict users"

/-- `FreezeRoom._on_frozen_state_change`. `isLocal` abstracts
`self._is_local_user` (a query against the external module API). -/
def onFrozenStateChange (cfg : FreezeRoomConfig) (isLocal : String → Bool)
    (event : Event) (stateEvents : StateMap) : Except String Outcome :=
  match dget "frozen" event.content with
  | some (PyVal.bool frozen) =>
    if frozen = false ∧ domainOf event.sender ∈ cfg.unfreeze_blacklist then
      Except.ok ⟨false, none, []⟩
    else if currentFrozenMatches stateEvents frozen then
      Except.ok ⟨true, none, []⟩
    else if isLocal event.sender = false then
      Except.ok ⟨true, none, []⟩
    else
      match joinRulesReset event stateEvents frozen with
      | Except.error msg => Except.error msg
      | Except.ok jrSent =>
        match sget stateEvents (EventTypes.PowerLevels, "") with
        | none => Except.error "AttributeError: content of None"
        | some currentPowerLevels =>
          match (if frozen = false then
                  unfreezePowerLevels event.sender (unfreezeDict currentPowerLevels.content)
                 else
                  freezePowerLevels (unfreezeDict currentPowerLevels.content)) with
          | Except.error msg => Except.error msg
          | Except.ok newContent =>
            Except.ok ⟨true, some event,
              jrSent ++ [⟨event.roomId, event.sender, EventTypes.PowerLevels, newContent, ""⟩]⟩
  | _ => Except.ok ⟨false, none, []⟩

/-! ### `_on_event_when_frozen` -/

/-- `FreezeRoom._on_event_when_frozen`: while the room is frozen, allow only
self-leaves and the power-level update that belongs to an in-flight unfreeze. -/
def onEventWhenFrozen (event : Event) (stateEvents : StateMap) :
    Except String Outcome :=
  if event.type = EventTypes.Member
      ∧ pyEq event.membership (PyVal.str Membership.LEAVE) = true
      ∧ some event.sender = event.stateKey then
    Except.ok ⟨true, none, []⟩
  else if event.type = EventTypes.PowerLevels then
    match sget stateEvents (EventTypes.PowerLevels, "") with
    | none => Except.ok ⟨false, none, []⟩
    | some currentPowerLevels =>
      let oldContent := dset "users_default" (PyVal.int 0) currentPowerLevels.content
      let newContent := unfreezeDict event.content
      match (match dget "users" newContent with
             | none => Except.ok (PyVal.int 0)
             | some (PyVal.dict users) =>
               Except.ok ((dget event.sender users).getD (PyVal.int 0))
             | some _ => Except.error "AttributeError: get on non-dict users") with
      | Except.error msg => Except.error msg
      | Except.ok senderPl =>
        match dget "users" oldContent with
        | none => Except.error "KeyError: users"
        | some _ =>
          match dget "users" newContent with
          | none => Except.error "KeyError: users"
          | some _ =>
            if pyEqDict (ddel "users" newContent) (ddel "users" oldContent) = true
                ∧ pyEq senderPl (PyVal.int 100) = true then
              Except.ok ⟨true, none, []⟩
            else Except.ok ⟨false, none, []⟩
  else Except.ok ⟨false, none, []⟩

/-! ### `_on_room_leave` and its helpers -/

/-- Python `power_level >= 100` on a user entry. Power levels are numeric
(`bool` being an `int` subtype); a non-numeric level would raise `TypeError`
in Python and never qualifies as an admin here. -/
def pyGe100 : PyVal → Bool
  | PyVal.int n => 100 ≤ n
  | PyVal.bool _ => false
  | _ => false

/-- The admin set of `_is_last_admin_leaving`:
`{user for user, power_level in users.items() if power_level >= 100}`. -/
def adminUsersOf : PyDict → List String
  | PyDict.nil => []
  | PyDict.cons k v rest =>
    if pyGe100 v then k :: adminUsersOf rest else adminUsersOf rest

/-- `pl_content["users"]` once `_get_power_levels_content_from_state` has
validated that the key holds a dict. -/
def usersOf (plContent : PyDict) : PyDict :=
  match dget "users" plContent with
  | some (PyVal.dict users) => users
  | _ => PyDict.nil

/-- `_is_last_admin_leaving`. In the source the generator expression
`for (event_type, state_key), event in state_events.items()` rebinds `event`,
shadowing the outer leave event: both `event.membership` and `event.sender`
inside the `any(...)` refer to the state event under iteration. -/
def isLastAdminLeaving (event : Event) (powerLevelContent : PyDict)
    (stateEvents : StateMap) : Bool :=
  let adminUsers := adminUsersOf (usersOf powerLevelContent)
  if !(adminUsers.contains event.sender) then false
  else if stateEvents.any (fun entry =>
      entry.1.1 == EventTypes.Member
      && (pyEq entry.2.membership (PyVal.str Membership.JOIN)
          || pyEq entry.2.membership (PyVal.str Membership.INVITE))
      && adminUsers.contains entry.1.2
      && entry.1.2 != entry.2.sender) then false
  else true

/-- `_get_power_levels_content_from_state`: the current power-levels content,
or `none` when the event is absent or its content lacks a `users` dict. -/
def getPowerLevelsContentFromState (stateEvents : StateMap) : Option PyDict :=
  match sget stateEvents (EventTypes.PowerLevels, "") with
  | none => none
  | some evt =>
    match dget "users" evt.content with
    | some (PyVal.dict _) => some evt.content
    | _ => none

/-- `_get_membership`: the membership value of the member state event for
`user_id`, or `none` when there is no such event. -/
def getMembership (userId : String) (stateEvents : StateMap) : Option PyVal :=
  match sget stateEvents (EventTypes.Member, userId) with
  | none => none
  | some evt => some evt.membership

/-- `_get_membership(user_id, state_events) in [Membership.JOIN, Membership.INVITE]`. -/
def membershipJoinOrInvite (userId : String) (stateEvents : StateMap) : Bool :=
  match getMembership userId stateEvents with
  | none => false
  | some m =>
    pyEq m (PyVal.str Membership.JOIN) || pyEq m (PyVal.str Membership.INVITE)

/-- `max(users_dict_copy.values())` over the non-empty dict `kv :: rest`. -/
def maxPlOf (kv : String × Int) (rest : List (String × Int)) : Int :=
  rest.foldl (fun acc x => max acc x.2) kv.2

/-- The `while True` loop of `_get_users_with_highest_nondefault_pl`,
transcribed with explicit step fuel; `none` means the fuel ran out before the
loop returned. Each iteration: return `()` on an empty dict or when the
maximum level is at most the default; otherwise promote the maximal-level
users who are joined or invited, or drop that whole tier and loop. -/
def tieredSearchFuel (stateEvents : StateMap) (usersDefaultPl : Int) :
    Nat → List (String × Int) → Option (List String)
  | 0, _ => none
  | Nat.succ _, [] => some []
  | Nat.succ fuel, kv :: rest =>
    let maxPl := maxPlOf kv rest
    if maxPl ≤ usersDefaultPl then some []
    else
      let usersWithMaxPl := ((kv :: rest).filter (fun x => x.2 == maxPl)).map Prod.fst
      let usersToPromote :=
        usersWithMaxPl.filter (fun u => membershipJoinOrInvite u stateEvents)
      if usersToPromote.isEmpty then
        tieredSearchFuel stateEvents usersDefaultPl fuel
          ((kv :: rest).filter (fun x => !(x.2 == maxPl)))
      else some usersToPromote

/-- The loop of `_get_users_with_highest_nondefault_pl` run to completion:
`usersDict.length + 1` iterations always suffice (proved below). -/
def tieredSearch (stateEvents : StateMap) (usersDefaultPl : Int)
    (usersDict : List (String × Int)) : List String :=
  (tieredSearchFuel stateEvents usersDefaultPl (usersDict.length + 1) usersDict).getD []

/-- A power level as the `int` Python compares it as; other types raise
`TypeError` when compared against an `int`. -/
def toIntLevel : PyVal → Except String Int
  | PyVal.int n => Except.ok n
  | PyVal.bool b => Except.ok (if b then 1 else 0)
  | _ => Except.error "TypeError: comparison on non-int power level"

/-- Interpret every level of a users dict as an `int`. -/
def liftLevels : PyDict → Except String (List (String × Int))
  | PyDict.nil => Except.ok []
  | PyDict.cons k v rest =>
    match toIntLevel v with
    | Except.error msg => Except.error msg
    | Except.ok n =>
      match liftLevels rest with
      | Except.error msg => Except.error msg
      | Except.ok r => Except.ok ((k, n) :: r)

/-- `_get_users_with_highest_nondefault_pl`. -/
def getUsersWithHighestNondefaultPl (usersDict : PyDict) (usersDefaultPl : PyVal)
    (stateEvents : StateMap) (ignoreUser : String) : Except String (List String) :=
  let usersDictCopy := ddel ignoreUser usersDict
  match liftLevels usersDictCopy with
  | Except.error msg => Except.error msg
  | Except.ok levels =>
    match toIntLevel usersDefaultPl with
    | Except.error msg => Except.error msg
    | Except.ok ud => Except.ok (tieredSearch stateEvents ud levels)

/-- `FreezeRoom._promote_to_admins`: one power-levels event setting every
promoted user to `pl_content["users"][event.sender]`, the leaving sender's
explicit level (`KeyError` if the sender has no explicit entry). -/
def promoteToAdmins (usersToPromote : List String) (plContent : PyDict)
    (event : Event) : Except String (List Sent) :=
  match dget event.sender (usersOf plContent) with
  | none => Except.error "KeyError: sender has no explicit power level"
  | some senderLevel =>
    let newUsers :=
      usersToPromote.foldl (fun acc u => dset u senderLevel acc) (usersOf plContent)
    Except.ok [⟨event.roomId, event.sender, EventTypes.PowerLevels,
      dset "users" (PyVal.dict newUsers) plContent, ""⟩]

/-- The frozen-marker event `_on_room_leave` sends when freezing the room. -/
def freezeMarkerSent (event : Event) : Sent :=
  ⟨event.roomId, event.sender, FROZEN_STATE_TYPE, dmk [("frozen", PyVal.bool true)], ""⟩

/-- `FreezeRoom._on_room_leave`: the Admin-Succession Resolver. Returns the
compensating events it sends (it produces no allow/deny decision itself). -/
def onRoomLeave (cfg : FreezeRoomConfig) (event : Event) (stateEvents : StateMap) :
    Except String (List Sent) :=
  match getPowerLevelsContentFromState stateEvents with
  | none => Except.ok []
  | some plContent =>
    if isLastAdminLeaving event plContent stateEvents = false then Except.ok []
    else if cfg.promote_moderators then
      match getUsersWithHighestNondefaultPl (usersOf plContent)
          ((dget "users_default" plContent).getD (PyVal.int 0))
          stateEvents (event.stateKey.getD "") with
      | Except.error msg => Except.error msg
      | Except.ok usersToPromote =>
        if usersToPromote.isEmpty then Except.ok [freezeMarkerSent event]
        else promoteToAdmins usersToPromote plContent event
    else Except.ok [freezeMarkerSent event]

/-! ### `check_event_allowed` (the Admission Dispatcher) -/

/-- `frozen_state.content.get("frozen", False) is True` applied to the
snapshot: whether the room is currently frozen. `is True` is an identity
check, so only the boolean `True` qualifies. -/
def roomIsFrozen (stateEvents : StateMap) : Bool :=
  match sget stateEvents (FROZEN_STATE_TYPE, "") with
  | some frozenState =>
    match dget "frozen" frozenState.content with
    | some (PyVal.bool true) => true
    | _ => false
  | none => false

/-- `FreezeRoom.check_event_allowed`: the dispatcher routing a candidate event
to the right handler. -/
def checkEventAllowed (cfg : FreezeRoomConfig) (isLocal : String → Bool)
    (event : Event) (stateEvents : StateMap) : Except String Outcome :=
  if event.type = FROZEN_STATE_TYPE ∧ event.isState = true then
    onFrozenStateChange cfg isLocal event stateEvents
  else if roomIsFrozen stateEvents then
    onEventWhenFrozen event stateEvents
  else if event.type = EventTypes.Member
      ∧ pyEq event.membership (PyVal.str Membership.LEAVE) = true
      ∧ event.isState = true then
    match onRoomLeave cfg event stateEvents with
    | Except.error msg => Except.error msg
    | Except.ok sent => Except.ok ⟨true, none, sent⟩
  else Except.ok ⟨true, none, []⟩

/-! ### Concrete fixtures, mirroring the repository test suite
(`tests/test_room_freeze.py`). -/

def uAlice : String := "@alice:example.com"

def uBob : String := "@bob:example.com"

def uMod : String := "@mod:example.com"

def uNothere : String := "@nothere:example.com"

def roomMain : String := "!someroom:example.com"

def usersMain : PyDict :=
  dmk [(uAlice, PyVal.int 100), (uNothere, PyVal.int 75), (uMod, PyVal.int 50)]

def plContentMain : PyDict := dmk [
  ("ban", PyVal.int 50),
  ("events", PyVal.dict (dmk [("m.room.name", PyVal.int 50),
    ("m.room.power_levels", PyVal.int 100)])),
  ("events_default", PyVal.int 0),
  ("invite", PyVal.int 0),
  ("kick", PyVal.int 50),
  ("redact", PyVal.int 50),
  ("state_default", PyVal.int 50),
  ("users", PyVal.dict usersMain),
  ("users_default", PyVal.int 0)]

def plEventMain : Event :=
  ⟨EventTypes.PowerLevels, uAlice, some "", plContentMain, roomMain⟩

def jrEventMain : Event :=
  ⟨EventTypes.JoinRules, uAlice, some "", dmk [("join_rule", PyVal.str "public")], roomMain⟩

def modJoinEvent : Event :=
  ⟨EventTypes.Member, uMod, some uMod, dmk [("membership", PyVal.str "join")], roomMain⟩

def nothereLeaveEvent : Event :=
  ⟨EventTypes.Member, uNothere, some uNothere, dmk [("membership", PyVal.str "leave")], roomMain⟩

def stateMain : StateMap := [
  ((EventTypes.PowerLevels, ""), plEventMain),
  ((EventTypes.JoinRules, ""), jrEventMain),
  ((EventTypes.Member, uMod), modJoinEvent),
  ((EventTypes.Member, uNothere), nothereLeaveEvent)]

/-- A frozen-marker candidate event. -/
def frozenEvt (sender : String) (v : PyVal) : Event :=
  ⟨FROZEN_STATE_TYPE, sender, some "", dmk [("frozen", v)], roomMain⟩

/-- A self-leave membership event. -/
def leaveEvt (sender : String) : Event :=
  ⟨EventTypes.Member, sender, some sender, dmk [("membership", PyVal.str "leave")], roomMain⟩

def cfgMain : FreezeRoomConfig := ⟨["evil.com"], false⟩

def cfgPromote : FreezeRoomConfig := ⟨[], true⟩

def isLocalMain : String → Bool := fun u => domainOf u == "example.com"

/-- `stateMain` with a current frozen-marker event whose value is `true`. -/
def stateFrozenMarker : StateMap :=
  ((FROZEN_STATE_TYPE, ""), frozenEvt uAlice (PyVal.bool true)) :: stateMain

/-- `stateMain` with a current frozen-marker event whose value is `false`. -/
def stateUnfrozenMarker : StateMap :=
  ((FROZEN_STATE_TYPE, ""), frozenEvt uAlice (PyVal.bool false)) :: stateMain

/-! ### C1: another joined admin and the succession resolver -/

/-- A power-levels content with two administrators. -/
def plTwoAdmins : PyDict := dmk [
  ("users", PyVal.dict (dmk [(uAlice, PyVal.int 100), (uBob, PyVal.int 100)])),
  ("users_default", PyVal.int 0)]

/-- A room where both admins are joined (each membership event self-sent, as
every Matrix join is). -/
def stateTwoAdmins : StateMap := [
  ((EventTypes.PowerLevels, ""), ⟨EventTypes.PowerLevels, uAlice, some "", plTwoAdmins, roomMain⟩),
  ((EventTypes.Member, uAlice), ⟨EventTypes.Member, uAlice, some uAlice,
    dmk [("membership", PyVal.str "join")], roomMain⟩),
  ((EventTypes.Member, uBob), ⟨EventTypes.Member, uBob, some uBob,
    dmk [("membership", PyVal.str "join")], roomMain⟩)]

/-- C1: the claim says that when an admin sends a self-leave while another
admin address has membership JOIN, the succession resolver is a no-op. In the
room `stateTwoAdmins`, `uBob` is an admin (level 100) distinct from the
leaving admin `uAlice` and is joined, yet `_is_last_admin_leaving` still
reports `uAlice` as the last admin leaving and the resolver emits a frozen
marker: the generator expression in `_is_last_admin_leaving` shadows `event`,
so `state_key != event.sender` compares the join against its own (identical)
sender and self-sent joins of other admins are never detected, contradicting
the comment in the source stating that another admin in or invited to the
room makes the function return false. -/
theorem c1_resolver_fires_despite_other_joined_admin :
    adminUsersOf (usersOf plTwoAdmins) = [uAlice, uBob]
    ∧ uBob ≠ uAlice
    ∧ getMembership uBob stateTwoAdmins = some (PyVal.str Membership.JOIN)
    ∧ isLastAdminLeaving (leaveEvt uAlice) plTwoAdmins stateTwoAdmins = true
    ∧ onRoomLeave cfgMain (leaveEvt uAlice) stateTwoAdmins
        = Except.ok [freezeMarkerSent (leaveEvt uAlice)] :=
  ⟨by decide, by decide, by rfl, by decide, by rfl⟩

/-! ### C9: frozen room with no current power-levels event -/

/-- C9: while the room is frozen, if the snapshot has no current power-levels
event, every candidate power-levels event is denied with no rewrite,
whatever its content. -/
theorem c9_frozen_no_power_levels_denies (event : Event) (stateEvents : StateMap)
    (htype : event.type = EventTypes.PowerLevels)
    (hnopl : sget stateEvents (EventTypes.PowerLevels, "") = none) :
    onEventWhenFrozen event stateEvents = Except.ok ⟨false, none, []⟩ := by
  unfold onEventWhenFrozen
  rw [htype, hnopl]
  simp [EventTypes.PowerLevels, EventTypes.Member]

/-- Witness for C9 at a concrete input: a power-levels candidate carrying
arbitrary content, evaluated in a frozen room with no power-levels state. -/
theorem c9_witness :
    onEventWhenFrozen ⟨EventTypes.PowerLevels, uAlice, some "", plContentMain, roomMain⟩
        [((FROZEN_STATE_TYPE, ""), frozenEvt uAlice (PyVal.bool true))]
      = Except.ok ⟨false, none, []⟩ :=
  c9_frozen_no_power_levels_denies _ _ rfl rfl

/-! ### C4: idempotent frozen-marker events -/

/-- C4 as stated is false: a frozen-marker candidate whose `frozen` boolean
equals the current marker value is NOT always allowed — the unfreeze
blacklist is checked first. Here the room marker already has `frozen = false`
and a blacklisted sender re-sends `frozen = false`; the claim says ALLOW, the
code returns DENY. -/
theorem c4_blacklisted_idempotent_unfreeze_denied :
    currentFrozenMatches stateUnfrozenMarker false = true
    ∧ onFrozenStateChange cfgMain isLocalMain
        (frozenEvt "@alice:evil.com" (PyVal.bool false)) stateUnfrozenMarker
      = Except.ok ⟨false, none, []⟩ :=
  ⟨by rfl, by rfl⟩

/-- C4 amended: for every frozen-marker candidate whose `frozen` boolean
equals the `frozen` value of the snapshot's current frozen-marker event,
unless the candidate is an unfreeze (`frozen = false`) from a sender whose
domain is in the unfreeze blacklist, the decision is ALLOW with no rewrite
and no compensating event is emitted. -/
theorem c4_idempotent_allowed_unless_blacklisted
    (cfg : FreezeRoomConfig) (isLocal : String → Bool) (event : Event)
    (stateEvents : StateMap) (b : Bool)
    (hfrozen : dget "frozen" event.content = some (PyVal.bool b))
    (hmatch : currentFrozenMatches stateEvents b = true)
    (hnotbl : ¬ (b = false ∧ domainOf event.sender ∈ cfg.unfreeze_blacklist)) :
    onFrozenStateChange cfg isLocal event stateEvents = Except.ok ⟨true, none, []⟩ := by
  unfold onFrozenStateChange
  rw [hfrozen]
  simp only [if_neg hnotbl, hmatch, if_pos]

/-- Witness for C4 amended: re-freezing an already-frozen room is an
idempotent ALLOW with no emission. -/
theorem c4_witness :
    onFrozenStateChange cfgMain isLocalMain (frozenEvt uAlice (PyVal.bool true))
        stateFrozenMarker = Except.ok ⟨true, none, []⟩ :=
  c4_idempotent_allowed_unless_blacklisted cfgMain isLocalMain
    (frozenEvt uAlice (PyVal.bool true)) stateFrozenMarker true (by rfl) (by rfl)
    (by intro h; exact absurd h.1 (by decide))

/-! ### C7: the unfreeze blacklist -/

/-- C7: a `frozen = false` candidate from a blacklisted domain is always
denied with no rewrite and no emission, whatever the room state; and a
`frozen = true` candidate is never denied — every decision the handler
returns for it is an ALLOW (the blacklist is consulted only for unfreezes). -/
theorem c7_unfreeze_blacklist :
    (∀ (cfg : FreezeRoomConfig) (isLocal : String → Bool) (event : Event)
        (stateEvents : StateMap),
      dget "frozen" event.content = some (PyVal.bool false) →
      domainOf event.sender ∈ cfg.unfreeze_blacklist →
      onFrozenStateChange cfg isLocal event stateEvents = Except.ok ⟨false, none, []⟩)
    ∧ (∀ (cfg : FreezeRoomConfig) (isLocal : String → Bool) (event : Event)
        (stateEvents : StateMap) (out : Outcome),
      dget "frozen" event.content = some (PyVal.bool true) →
      onFrozenStateChange cfg isLocal event stateEvents = Except.ok out →
      out.allow = true) := by
  constructor
  · intro cfg isLocal event stateEvents hfrozen hbl
    unfold onFrozenStateChange
    rw [hfrozen]
    simp [hbl]
  · intro cfg isLocal event stateEvents out hfrozen hok
    unfold onFrozenStateChange at hok
    rw [hfrozen] at hok
    simp only at hok
    split at hok
    · rename_i hcond
      exact absurd hcond.1 (by simp)
    split at hok
    · cases hok
      rfl
    split at hok
    · cases hok
      rfl
    split at hok
    · cases hok
    rename_i jrSent hjr
    split at hok
    · cases hok
    rename_i cpl hcpl
    split at hok
    · cases hok
    cases hok
    rfl

/-- Witness for C7: a blacklisted unfreeze is denied in the concrete room,
and the decision returned for a blacklisted freeze is an ALLOW. -/
theorem c7_witness :
    onFrozenStateChange cfgMain isLocalMain
        (frozenEvt "@alice:evil.com" (PyVal.bool false)) stateMain
      = Except.ok ⟨false, none, []⟩
    ∧ (⟨true, none, []⟩ : Outcome).allow = true :=
  ⟨c7_unfreeze_blacklist.1 cfgMain isLocalMain _ stateMain (by rfl)
      (by decide),
   c7_unfreeze_blacklist.2 cfgMain isLocalMain
      (frozenEvt "@alice:evil.com" (PyVal.bool true)) stateMain _ (by rfl) (by rfl)⟩

/-! ### C2: the frozen-room power-levels equivalence check -/

/-- The candidate's resolved power level for its own sender: from its own
`users` map, default 0. -/
def senderLevelIn (content : PyDict) (sender : String) : PyVal :=
  match dget "users" content with
  | some (PyVal.dict users) => (dget sender users).getD (PyVal.int 0)
  | _ => PyVal.int 0

/-- The equivalence check exactly as claim C2 words it: ignore the `users`
sub-map and ignore `users_default` (forced to 0 on BOTH sides before
comparison), all other fields equal field-for-field, and the candidate's own
`users` map gives its sender exactly 100. -/
def claimFrozenPlEquiv (candContent curContent : PyDict) (sender : String) : Bool :=
  pyEqDict (ddel "users" (dset "users_default" (PyVal.int 0) candContent))
      (ddel "users" (dset "users_default" (PyVal.int 0) curContent))
    && pyEq (senderLevelIn candContent sender) (PyVal.int 100)

/-- The equivalence check as the code actually performs it: `users_default`
is forced to 0 on the CURRENT side only, so the candidate must itself carry
`users_default = 0` for the contents to match. -/
def recognizedUnfreezePl (candContent curContent : PyDict) (sender : String) : Bool :=
  pyEqDict (ddel "users" candContent)
      (ddel "users" (dset "users_default" (PyVal.int 0) curContent))
    && pyEq (senderLevelIn candContent sender) (PyVal.int 100)

/-- The current power-levels content of a frozen room (`users_default` 100). -/
def c2CurrentPl : PyDict :=
  dmk [("users", PyVal.dict PyDict.nil), ("users_default", PyVal.int 100)]

/-- A candidate power-levels event matching `c2CurrentPl` field-for-field,
granting its sender 100 through its `users` map. -/
def c2Candidate : Event :=
  ⟨EventTypes.PowerLevels, uAlice, some "",
    dmk [("users", PyVal.dict (dmk [(uAlice, PyVal.int 100)])),
      ("users_default", PyVal.int 100)], roomMain⟩

def c2State : StateMap := [
  ((FROZEN_STATE_TYPE, ""), frozenEvt uAlice (PyVal.bool true)),
  ((EventTypes.PowerLevels, ""),
    ⟨EventTypes.PowerLevels, uAlice, some "", c2CurrentPl, roomMain⟩)]

/-- C2 as stated is false: under the claim's equivalence (users ignored,
`users_default` forced to 0 on both sides) the candidate `c2Candidate` is
equivalent to the current content and grants its sender 100, so the claim
says ALLOW; the code forces `users_default` to 0 only on the current side,
the candidate carries 100, and the decision is DENY. -/
theorem c2_claim_equiv_allows_but_code_denies :
    claimFrozenPlEquiv c2Candidate.content c2CurrentPl uAlice = true
    ∧ onEventWhenFrozen c2Candidate c2State = Except.ok ⟨false, none, []⟩ :=
  ⟨by rfl, by rfl⟩

/-- C2 amended: while the room is frozen, a candidate power-levels event
(with a current power-levels event present, the candidate carrying a `users`
dict and the current content carrying a `users` key) is allowed with no
rewrite if and only if its content with `users` removed equals the current
content with `users` removed and `users_default` replaced by 0 — so the
candidate must itself carry `users_default = 0` — and the candidate's own
`users` map gives its sender exactly 100; otherwise it is denied. -/
theorem c2_frozen_power_levels_decision
    (event : Event) (stateEvents : StateMap) (cpl : Event) (users : PyDict)
    (htype : event.type = EventTypes.PowerLevels)
    (hcur : sget stateEvents (EventTypes.PowerLevels, "") = some cpl)
    (husers : dget "users" event.content = some (PyVal.dict users))
    (hcurusers : (dget "users" cpl.content).isSome = true) :
    onEventWhenFrozen event stateEvents
      = Except.ok ⟨recognizedUnfreezePl event.content cpl.content event.sender,
          none, []⟩ := by
  obtain ⟨w, hw⟩ := Option.isSome_iff_exists.mp hcurusers
  have holdusers : dget "users" (dset "users_default" (PyVal.int 0) cpl.content)
      = some w := by
    rw [dget_dset_ne "users" "users_default" _ (by decide), hw]
  unfold onEventWhenFrozen
  rw [htype]
  rw [if_neg (by intro h; exact absurd h.1 (by decide))]
  rw [if_pos rfl]
  rw [hcur]
  simp only [unfreezeDict, husers, holdusers]
  unfold recognizedUnfreezePl senderLevelIn
  rw [husers]
  by_cases heq : pyEqDict (ddel "users" event.content)
      (ddel "users" (dset "users_default" (PyVal.int 0) cpl.content)) = true
  · by_cases hpl : pyEq ((dget event.sender users).getD (PyVal.int 0)) (PyVal.int 100) = true
    · rw [if_pos ⟨heq, hpl⟩, heq, hpl]
      rfl
    · rw [if_neg (by intro h; exact hpl h.2)]
      simp [heq, Bool.eq_false_iff.mpr hpl]
  · rw [if_neg (by intro h; exact heq h.1)]
    rw [Bool.eq_false_iff.mpr heq]
    rfl

/-- Witness for C2 amended: the exact power-levels content that the
Freeze-Transition Handler emits while unfreezing is recognized and allowed
by the frozen-room gatekeeper. -/
theorem c2_witness :
    onEventWhenFrozen
        ⟨EventTypes.PowerLevels, uAlice, some "",
          dset "users_default" (PyVal.int 0)
            (dset "users" (PyVal.dict (dset uAlice (PyVal.int 100) usersMain))
              plContentMain), roomMain⟩
        stateFrozenMarker
      = Except.ok ⟨true, none, []⟩ := by
  have h := c2_frozen_power_levels_decision
    ⟨EventTypes.PowerLevels, uAlice, some "",
      dset "users_default" (PyVal.int 0)
        (dset "users" (PyVal.dict (dset uAlice (PyVal.int 100) usersMain))
          plContentMain), roomMain⟩
    stateFrozenMarker plEventMain (dset uAlice (PyVal.int 100) usersMain)
    (by rfl) (by rfl) (by rfl) (by rfl)
  rw [h]
  rfl

/-! ### C3: malformed input -/

/-- Whether the `frozen` field of a content is present and boolean. -/
def frozenFieldIsBool (content : PyDict) : Bool :=
  match dget "frozen" content with
  | some (PyVal.bool _) => true
  | _ => false

/-- A frozen-room power-levels candidate whose content has no `users` key. -/
def c3Candidate : Event :=
  ⟨EventTypes.PowerLevels, uAlice, some "", dmk [("users_default", PyVal.int 0)], roomMain⟩

/-- C3 as stated is false: a power-levels candidate without a `users` mapping,
evaluated while the room is frozen, makes the gatekeeper raise `KeyError`
(`del new_content["users"]`) instead of denying or skipping. -/
theorem c3_missing_users_raises :
    dget "users" c3Candidate.content = none
    ∧ onEventWhenFrozen c3Candidate stateFrozenMarker = Except.error "KeyError: users" :=
  ⟨by rfl, by rfl⟩

/-- C3 amended: a frozen-marker candidate whose `frozen` field is missing or
not a boolean is denied without an exception, and the succession resolver
silently skips when the power-levels state is missing its required shape; but
while the room is frozen, a power-levels candidate raises an uncaught
exception whenever the candidate content or the current power-levels content
lacks a `users` key. -/
theorem c3_malformed_handling :
    (∀ (cfg : FreezeRoomConfig) (isLocal : String → Bool) (event : Event)
        (stateEvents : StateMap),
      frozenFieldIsBool event.content = false →
      onFrozenStateChange cfg isLocal event stateEvents = Except.ok ⟨false, none, []⟩)
    ∧ (∀ (cfg : FreezeRoomConfig) (event : Event) (stateEvents : StateMap),
      getPowerLevelsContentFromState stateEvents = none →
      onRoomLeave cfg event stateEvents = Except.ok [])
    ∧ (∀ (event : Event) (stateEvents : StateMap) (cpl : Event),
      event.type = EventTypes.PowerLevels →
      sget stateEvents (EventTypes.PowerLevels, "") = some cpl →
      (dget "users" event.content = none ∨ dget "users" cpl.content = none) →
      ∃ msg, onEventWhenFrozen event stateEvents = Except.error msg) := by
  refine ⟨?_, ?_, ?_⟩
  · intro cfg isLocal event stateEvents hbool
    unfold onFrozenStateChange
    cases hv : dget "frozen" event.content with
    | none => rfl
    | some v =>
      cases v with
      | bool b => simp [frozenFieldIsBool, hv] at hbool
      | null => rfl
      | int n => rfl
      | str s => rfl
      | dict d => rfl
      | list l => rfl
  · intro cfg event stateEvents hnone
    unfold onRoomLeave
    rw [hnone]
  · intro event stateEvents cpl htype hcur hmissing
    unfold onEventWhenFrozen
    rw [htype]
    rw [if_neg (by intro h; exact absurd h.1 (by decide))]
    rw [if_pos rfl]
    rw [hcur]
    have holdusers : dget "users" (dset "users_default" (PyVal.int 0) cpl.content)
        = dget "users" cpl.content :=
      dget_dset_ne "users" "users_default" _ (by decide) _
    cases hmissing with
    | inl hnew =>
      simp only [unfreezeDict, hnew, holdusers]
      cases hold : dget "users" cpl.content with
      | none => exact ⟨"KeyError: users", rfl⟩
      | some w => exact ⟨"KeyError: users", rfl⟩
    | inr hold =>
      simp only [unfreezeDict, holdusers, hold]
      cases hnew : dget "users" event.content with
      | none => exact ⟨"KeyError: users", rfl⟩
      | some v =>
        cases v with
        | dict users => exact ⟨"KeyError: users", rfl⟩
        | null => exact ⟨"AttributeError: get on non-dict users", rfl⟩
        | bool b => exact ⟨"AttributeError: get on non-dict users", rfl⟩
        | int n => exact ⟨"AttributeError: get on non-dict users", rfl⟩
        | str s => exact ⟨"AttributeError: get on non-dict users", rfl⟩
        | list l => exact ⟨"AttributeError: get on non-dict users", rfl⟩

/-- Witness for C3 amended at concrete inputs: a non-boolean `frozen` value is
denied, a snapshot without power levels is skipped by the resolver, and a
frozen-room power-levels candidate without `users` raises. -/
theorem c3_witness :
    onFrozenStateChange cfgMain isLocalMain (frozenEvt uAlice (PyVal.str "foo")) stateMain
      = Except.ok ⟨false, none, []⟩
    ∧ onRoomLeave cfgMain (leaveEvt uAlice) [] = Except.ok []
    ∧ ∃ msg, onEventWhenFrozen c3Candidate stateFrozenMarker = Except.error msg :=
  ⟨c3_malformed_handling.1 cfgMain isLocalMain _ stateMain (by rfl),
   c3_malformed_handling.2.1 cfgMain (leaveEvt uAlice) [] (by rfl),
   c3_malformed_handling.2.2 c3Candidate stateFrozenMarker plEventMain rfl (by rfl)
     (Or.inl (by rfl))⟩

/-! ### C5: the freeze power-level invariant -/

/-- C5: for every freeze transition that completes (candidate `frozen = true`,
a real transition, local sender, power levels present with a `users` dict),
the last event sent is the power-levels event, and its content has
`users_default = 100` and a `users` map retaining exactly the entries of the
previous `users` map whose level compares equal to 100. -/
theorem c5_freeze_power_level_invariant
    (cfg : FreezeRoomConfig) (isLocal : String → Bool) (event : Event)
    (stateEvents : StateMap) (cpl : Event) (prevUsers : PyDict) (out : Outcome)
    (hfrozen : dget "frozen" event.content = some (PyVal.bool true))
    (hreal : currentFrozenMatches stateEvents true = false)
    (hlocal : isLocal event.sender = true)
    (hcur : sget stateEvents (EventTypes.PowerLevels, "") = some cpl)
    (husers : dget "users" cpl.content = some (PyVal.dict prevUsers))
    (hok : onFrozenStateChange cfg isLocal event stateEvents = Except.ok out) :
    ∃ s, out.sent.getLast? = some s
      ∧ s.type = EventTypes.PowerLevels
      ∧ dget "users_default" s.content = some (PyVal.int 100)
      ∧ dget "users" s.content = some (PyVal.dict (keepLevel100 prevUsers)) := by
  unfold onFrozenStateChange at hok
  rw [hfrozen] at hok
  simp only at hok
  rw [if_neg (by intro h; exact absurd h.1 (by decide))] at hok
  rw [if_neg (by simp [hreal])] at hok
  rw [if_neg (by simp [hlocal])] at hok
  rw [hcur] at hok
  have hfreeze : freezePowerLevels (unfreezeDict cpl.content)
      = Except.ok (dset "users" (PyVal.dict (keepLevel100 prevUsers))
          (dset "users_default" (PyVal.int 100) cpl.content)) := by
    simp only [freezePowerLevels, unfreezeDict]
    rw [dget_dset_ne "users" "users_default" _ (by decide), husers]
  revert hok
  cases hjr : joinRulesReset event stateEvents true with
  | error msg => intro hok; cases hok
  | ok jrSent =>
    intro hok
    simp only at hok
    rw [if_neg (by decide), hfreeze] at hok
    cases hok
    refine ⟨_, List.getLast?_concat _, rfl, ?_, ?_⟩
    · rw [dget_dset_ne "users_default" "users" _ (by decide), dget_dset_self]
    · rw [dget_dset_self]

/-- Witness for C5 at the concrete freeze of `stateMain`: the emitted power
levels carry `users_default = 100` and prune `usersMain` to its level-100
entries. -/
theorem c5_witness :
    ∃ s, (⟨true, some (frozenEvt uAlice (PyVal.bool true)),
        [⟨roomMain, uAlice, EventTypes.JoinRules, dmk [("join_rule", PyVal.str "invite")], ""⟩,
         ⟨roomMain, uAlice, EventTypes.PowerLevels,
           dset "users" (PyVal.dict (keepLevel100 usersMain))
             (dset "users_default" (PyVal.int 100) plContentMain), ""⟩]⟩ : Outcome).sent.getLast?
        = some s
      ∧ s.type = EventTypes.PowerLevels
      ∧ dget "users_default" s.content = some (PyVal.int 100)
      ∧ dget "users" s.content = some (PyVal.dict (keepLevel100 usersMain)) :=
  c5_freeze_power_level_invariant cfgMain isLocalMain
    (frozenEvt uAlice (PyVal.bool true)) stateMain plEventMain usersMain _
    (by rfl) (by rfl) (by rfl) (by rfl) (by rfl) (by rfl)

/-! ### C6: the unfreeze power-level invariant -/

/-- C6: for every unfreeze transition that completes (candidate
`frozen = false`, sender not blacklisted, a real transition, local sender,
power levels present), the decision is ALLOW with rewrite equal to the full
dict form of the original candidate event, and exactly one power-levels event
is emitted, whose content has `users_default = 0` and `users[sender] = 100`. -/
theorem c6_unfreeze_power_level_invariant
    (cfg : FreezeRoomConfig) (isLocal : String → Bool) (event : Event)
    (stateEvents : StateMap) (cpl : Event) (out : Outcome)
    (hfrozen : dget "frozen" event.content = some (PyVal.bool false))
    (hnotbl : domainOf event.sender ∉ cfg.unfreeze_blacklist)
    (hreal : currentFrozenMatches stateEvents false = false)
    (hlocal : isLocal event.sender = true)
    (hcur : sget stateEvents (EventTypes.PowerLevels, "") = some cpl)
    (hok : onFrozenStateChange cfg isLocal event stateEvents = Except.ok out) :
    out.allow = true ∧ out.rewrite = some event
    ∧ ∃ s newUsers, out.sent = [s]
        ∧ s.type = EventTypes.PowerLevels
        ∧ dget "users_default" s.content = some (PyVal.int 0)
        ∧ dget "users" s.content = some (PyVal.dict newUsers)
        ∧ dget event.sender newUsers = some (PyVal.int 100) := by
  unfold onFrozenStateChange at hok
  rw [hfrozen] at hok
  simp only at hok
  rw [if_neg (by intro h; exact hnotbl h.2)] at hok
  rw [if_neg (by simp [hreal])] at hok
  rw [if_neg (by simp [hlocal])] at hok
  have hjr : joinRulesReset event stateEvents false = Except.ok [] := by
    simp [joinRulesReset]
  rw [hjr, hcur] at hok
  simp only at hok
  rw [if_pos trivial] at hok
  revert hok
  unfold unfreezePowerLevels unfreezeDict
  cases hu : dget "users" cpl.content with
  | none =>
    intro hok
    cases hok
    refine ⟨rfl, rfl, _, dset event.sender (PyVal.int 100) PyDict.nil, rfl, rfl, ?_, ?_, ?_⟩
    · rw [dget_dset_self]
    · rw [dget_dset_ne "users" "users_default" _ (by decide), dget_dset_self]
    · rw [dget_dset_self]
  | some v =>
    cases v with
    | dict users =>
      intro hok
      cases hok
      refine ⟨rfl, rfl, _, dset event.sender (PyVal.int 100) users, rfl, rfl, ?_, ?_, ?_⟩
      · rw [dget_dset_self]
      · rw [dget_dset_ne "users" "users_default" _ (by decide), dget_dset_self]
      · rw [dget_dset_self]
    | null => intro hok; cases hok
    | bool b => intro hok; cases hok
    | int n => intro hok; cases hok
    | str s2 => intro hok; cases hok
    | list l => intro hok; cases hok

/-- Witness for C6 at the concrete unfreeze of `stateMain`. -/
theorem c6_witness :
    (⟨true, some (frozenEvt uAlice (PyVal.bool false)),
        [⟨roomMain, uAlice, EventTypes.PowerLevels,
          dset "users_default" (PyVal.int 0)
            (dset "users" (PyVal.dict (dset uAlice (PyVal.int 100) usersMain))
              plContentMain), ""⟩]⟩ : Outcome).allow = true
    ∧ (⟨true, some (frozenEvt uAlice (PyVal.bool false)),
        [⟨roomMain, uAlice, EventTypes.PowerLevels,
          dset "users_default" (PyVal.int 0)
            (dset "users" (PyVal.dict (dset uAlice (PyVal.int 100) usersMain))
              plContentMain), ""⟩]⟩ : Outcome).rewrite
        = some (frozenEvt uAlice (PyVal.bool false))
    ∧ ∃ s newUsers, (⟨true, some (frozenEvt uAlice (PyVal.bool false)),
        [⟨roomMain, uAlice, EventTypes.PowerLevels,
          dset "users_default" (PyVal.int 0)
            (dset "users" (PyVal.dict (dset uAlice (PyVal.int 100) usersMain))
              plContentMain), ""⟩]⟩ : Outcome).sent = [s]
        ∧ s.type = EventTypes.PowerLevels
        ∧ dget "users_default" s.content = some (PyVal.int 0)
        ∧ dget "users" s.content = some (PyVal.dict newUsers)
        ∧ dget uAlice newUsers = some (PyVal.int 100) :=
  c6_unfreeze_power_level_invariant cfgMain isLocalMain
    (frozenEvt uAlice (PyVal.bool false)) stateMain plEventMain _
    (by rfl) (by decide) (by rfl) (by rfl) (by rfl) (by rfl)

/-! ### C10: termination of the tiered successor search -/

theorem foldl_max_attained :
    ∀ (l : List (String × Int)) (a : Int),
      l.foldl (fun acc x => max acc x.2) a = a
      ∨ ∃ x ∈ l, x.2 = l.foldl (fun acc x => max acc x.2) a := by
  intro l
  induction l with
  | nil => intro a; exact Or.inl rfl
  | cons y t ih =>
    intro a
    have hstep : (y :: t).foldl (fun acc x => max acc x.2) a
        = t.foldl (fun acc x => max acc x.2) (max a y.2) := rfl
    rcases ih (max a y.2) with h | ⟨x, hx, hx2⟩
    · rcases max_choice a y.2 with hm | hm
      · left
        rw [hstep, h, hm]
      · right
        exact ⟨y, List.mem_cons_self y t, by rw [hstep, h, hm]⟩
    · right
      exact ⟨x, List.mem_cons_of_mem y hx, by rw [hstep]; exact hx2⟩

/-- The maximum of a non-empty users dict is attained by one of its entries. -/
theorem maxPlOf_attained (kv : String × Int) (rest : List (String × Int)) :
    ∃ x ∈ kv :: rest, x.2 = maxPlOf kv rest := by
  unfold maxPlOf
  rcases foldl_max_attained rest kv.2 with h | ⟨x, hx, hx2⟩
  · exact ⟨kv, List.mem_cons_self kv rest, h.symm⟩
  · exact ⟨x, List.mem_cons_of_mem kv hx, hx2⟩

/-- Filtering out at least one element strictly shrinks a list. -/
theorem length_filter_lt {α : Type} (p : α → Bool) :
    ∀ (l : List α) (x : α), x ∈ l → p x = false →
      (l.filter p).length < l.length := by
  intro l
  induction l with
  | nil => intro x hx; cases hx
  | cons y t ih =>
    intro x hx hpx
    cases hy : p y with
    | false =>
      rw [List.filter_cons_of_neg (by simp [hy])]
      exact Nat.lt_succ_of_le (List.length_filter_le p t)
    | true =>
      have hxt : x ∈ t := by
        cases hx with
        | head => rw [hy] at hpx; cases hpx
        | tail _ h => exact h
      rw [List.filter_cons_of_pos (by simp [hy])]
      exact Nat.succ_lt_succ (ih x hxt hpx)

/-- The loop body of `_get_users_with_highest_nondefault_pl` reaches a result
within `d.length + 1` iterations, and the result does not depend on any
larger fuel: every iteration either returns or strictly shrinks the working
copy of the dict, because the maximal tier it removes is non-empty. -/
theorem tieredSearchFuel_terminates (stateEvents : StateMap) (usersDefaultPl : Int) :
    ∀ (n : Nat) (d : List (String × Int)), d.length ≤ n →
      ∃ r, ∀ f, d.length < f →
        tieredSearchFuel stateEvents usersDefaultPl f d = some r := by
  intro n
  induction n with
  | zero =>
    intro d hd
    have hnil : d = [] := List.length_eq_zero.mp (Nat.le_zero.mp hd)
    subst hnil
    refine ⟨[], ?_⟩
    intro f hf
    cases f with
    | zero => cases hf
    | succ f2 => rfl
  | succ n ih =>
    intro d hd
    cases d with
    | nil =>
      refine ⟨[], ?_⟩
      intro f hf
      cases f with
      | zero => cases hf
      | succ f2 => rfl
    | cons kv rest =>
      by_cases hle : maxPlOf kv rest ≤ usersDefaultPl
      · refine ⟨[], ?_⟩
        intro f hf
        cases f with
        | zero => cases hf
        | succ f2 => simp [tieredSearchFuel, hle]
      · by_cases hpe : ((((kv :: rest).filter (fun x => x.2 == maxPlOf kv rest)).map
            Prod.fst).filter (fun u => membershipJoinOrInvite u stateEvents)).isEmpty = true
        · obtain ⟨x0, hx0mem, hx0⟩ := maxPlOf_attained kv rest
          have hlt : ((kv :: rest).filter
              (fun x => !(x.2 == maxPlOf kv rest))).length < (kv :: rest).length :=
            length_filter_lt _ (kv :: rest) x0 hx0mem (by simp [hx0])
          have hle2 : ((kv :: rest).filter
              (fun x => !(x.2 == maxPlOf kv rest))).length ≤ n := by
            have := hd
            simp only [List.length_cons] at this
            omega
          obtain ⟨r, hr⟩ := ih _ hle2
          refine ⟨r, ?_⟩
          intro f hf
          cases f with
          | zero => cases hf
          | succ f2 =>
            have hstep : tieredSearchFuel stateEvents usersDefaultPl (f2 + 1) (kv :: rest)
                = tieredSearchFuel stateEvents usersDefaultPl f2
                    ((kv :: rest).filter (fun x => !(x.2 == maxPlOf kv rest))) := by
              simp [tieredSearchFuel, hle, hpe]
            rw [hstep]
            refine hr f2 ?_
            simp only [List.length_cons] at hf hlt
            omega
        · refine ⟨(((kv :: rest).filter (fun x => x.2 == maxPlOf kv rest)).map
              Prod.fst).filter (fun u => membershipJoinOrInvite u stateEvents), ?_⟩
          intro f hf
          cases f with
          | zero => cases hf
          | succ f2 => simp [tieredSearchFuel, hle, hpe]

/-- C10: the `while True` loop of `_get_users_with_highest_nondefault_pl`
terminates on every finite users dict: running its step-indexed transcription
with `d.length + 1` steps of fuel always yields a result, namely the value of
the completed search. -/
theorem c10_tiered_search_terminates (stateEvents : StateMap)
    (usersDefaultPl : Int) (usersDict : List (String × Int)) :
    tieredSearchFuel stateEvents usersDefaultPl (usersDict.length + 1) usersDict
      = some (tieredSearch stateEvents usersDefaultPl usersDict) := by
  obtain ⟨r, hr⟩ := tieredSearchFuel_terminates stateEvents usersDefaultPl
    usersDict.length usersDict (Nat.le_refl _)
  have h1 := hr (usersDict.length + 1) (Nat.lt_succ_self _)
  unfold tieredSearch
  rw [h1]
  rfl

/-! ### C8: the tiered successor search and the promotion it triggers -/

/-- The users of the maximal tier of `d` who are joined or invited. -/
def promotableOf (stateEvents : StateMap) (d : List (String × Int)) (m : Int) :
    List String :=
  ((d.filter (fun x => x.2 == m)).map Prod.fst).filter
    (fun u => membershipJoinOrInvite u stateEvents)

/-- A power-levels content whose only administrator holds level 150. -/
def users150 : PyDict := dmk [(uAlice, PyVal.int 150), (uMod, PyVal.int 50)]

def pl150 : PyDict :=
  dmk [("users", PyVal.dict users150), ("users_default", PyVal.int 0)]

def state150 : StateMap := [
  ((EventTypes.PowerLevels, ""), ⟨EventTypes.PowerLevels, uAlice, some "", pl150, roomMain⟩),
  ((EventTypes.Member, uMod), modJoinEvent)]

/-- C8 as stated is false in one detail: it glosses the promotion level as
"the leaving admin's former level, i.e., 100". The former level of an
administrator can exceed 100: here the last admin leaves with level 150 and
the joined moderator is promoted to 150, not 100. -/
theorem c8_promoted_level_not_100 :
    cfgPromote.promote_moderators = true
    ∧ isLastAdminLeaving (leaveEvt uAlice) pl150 state150 = true
    ∧ onRoomLeave cfgPromote (leaveEvt uAlice) state150
        = Except.ok [⟨roomMain, uAlice, EventTypes.PowerLevels,
            dset "users" (PyVal.dict (dset uMod (PyVal.int 150) users150)) pl150, ""⟩]
    ∧ dget uMod (dset uMod (PyVal.int 150) users150) = some (PyVal.int 150)
    ∧ PyVal.int 150 ≠ PyVal.int 100 :=
  ⟨rfl, by decide, by rfl, by rfl, by intro h; injection h with h2; cases h2⟩

theorem dget_foldl_dset_not_mem (v : PyVal) :
    ∀ (r : List String) (init : PyDict) (u : String), u ∉ r →
      dget u (r.foldl (fun acc x => dset x v acc) init) = dget u init := by
  intro r
  induction r with
  | nil => intro init u _; rfl
  | cons x t ih =>
    intro init u hu
    have hux : u ≠ x := fun h => hu (h ▸ List.mem_cons_self x t)
    have hut : u ∉ t := fun h => hu (List.mem_cons_of_mem x h)
    simp only [List.foldl_cons]
    rw [ih _ u hut, dget_dset_ne u x v hux]

theorem dget_foldl_dset_mem (v : PyVal) :
    ∀ (r : List String) (init : PyDict) (u : String), u ∈ r →
      dget u (r.foldl (fun acc x => dset x v acc) init) = some v := by
  intro r
  induction r with
  | nil => intro init u hu; cases hu
  | cons x t ih =>
    intro init u hu
    by_cases hut : u ∈ t
    · simp only [List.foldl_cons]
      exact ih _ u hut
    · have hux : u = x := by
        cases hu with
        | head => rfl
        | tail _ h => exact absurd h hut
      subst hux
      simp only [List.foldl_cons]
      rw [dget_foldl_dset_not_mem v t _ u hut, dget_dset_self]

/-- C8 amended: the tiered search proceeds exactly as the claim describes —
on a non-empty working dict it stops empty-handed when the maximal level is
at most `users_default`; promotes exactly the maximal-tier users with
membership JOIN or INVITE when there are any; and otherwise drops the whole
tier and recurses — and when promotion is enabled and the last admin leaves
with a non-empty promotion result, the resolver emits exactly one
power-levels event (no frozen marker) setting every promoted user's level to
the leaving admin's former level (not necessarily 100). -/
theorem c8_tiered_promotion :
    (∀ (stateEvents : StateMap) (usersDefaultPl : Int) (kv : String × Int)
        (rest : List (String × Int)),
      maxPlOf kv rest ≤ usersDefaultPl →
      tieredSearch stateEvents usersDefaultPl (kv :: rest) = [])
    ∧ (∀ (stateEvents : StateMap) (usersDefaultPl : Int) (kv : String × Int)
        (rest : List (String × Int)),
      usersDefaultPl < maxPlOf kv rest →
      promotableOf stateEvents (kv :: rest) (maxPlOf kv rest) ≠ [] →
      tieredSearch stateEvents usersDefaultPl (kv :: rest)
        = promotableOf stateEvents (kv :: rest) (maxPlOf kv rest))
    ∧ (∀ (stateEvents : StateMap) (usersDefaultPl : Int) (kv : String × Int)
        (rest : List (String × Int)),
      usersDefaultPl < maxPlOf kv rest →
      promotableOf stateEvents (kv :: rest) (maxPlOf kv rest) = [] →
      tieredSearch stateEvents usersDefaultPl (kv :: rest)
        = tieredSearch stateEvents usersDefaultPl
            ((kv :: rest).filter (fun x => !(x.2 == maxPlOf kv rest))))
    ∧ (∀ (cfg : FreezeRoomConfig) (event : Event) (stateEvents : StateMap)
        (plContent : PyDict) (r : List String) (senderLevel : PyVal),
      cfg.promote_moderators = true →
      getPowerLevelsContentFromState stateEvents = some plContent →
      isLastAdminLeaving event plContent stateEvents = true →
      getUsersWithHighestNondefaultPl (usersOf plContent)
          ((dget "users_default" plContent).getD (PyVal.int 0)) stateEvents
          (event.stateKey.getD "") = Except.ok r →
      r ≠ [] →
      dget event.sender (usersOf plContent) = some senderLevel →
      onRoomLeave cfg event stateEvents
        = Except.ok [⟨event.roomId, event.sender, EventTypes.PowerLevels,
            dset "users" (PyVal.dict (r.foldl (fun acc u => dset u senderLevel acc)
              (usersOf plContent))) plContent, ""⟩]
      ∧ ∀ u ∈ r, dget u (r.foldl (fun acc u2 => dset u2 senderLevel acc)
          (usersOf plContent)) = some senderLevel) := by
  have hterm := tieredSearchFuel_terminates
  refine ⟨?_, ?_, ?_, ?_⟩
  · intro stateEvents usersDefaultPl kv rest hle
    unfold tieredSearch
    simp [tieredSearchFuel, hle]
  · intro stateEvents usersDefaultPl kv rest hlt hne
    have hpe : (promotableOf stateEvents (kv :: rest) (maxPlOf kv rest)).isEmpty = false := by
      cases hp : promotableOf stateEvents (kv :: rest) (maxPlOf kv rest) with
      | nil => exact absurd hp hne
      | cons a l => rfl
    unfold tieredSearch
    unfold promotableOf at hpe
    simp [tieredSearchFuel, not_le.mpr hlt, hpe]
    rfl
  · intro stateEvents usersDefaultPl kv rest hlt hpemp
    have hpe : ((((kv :: rest).filter (fun x => x.2 == maxPlOf kv rest)).map
        Prod.fst).filter (fun u => membershipJoinOrInvite u stateEvents)).isEmpty = true := by
      unfold promotableOf at hpemp
      rw [hpemp]
      rfl
    obtain ⟨r, hr⟩ := hterm stateEvents usersDefaultPl
      ((kv :: rest).filter (fun x => !(x.2 == maxPlOf kv rest))).length
      ((kv :: rest).filter (fun x => !(x.2 == maxPlOf kv rest))) (Nat.le_refl _)
    obtain ⟨x0, hx0mem, hx0⟩ := maxPlOf_attained kv rest
    have hlen : ((kv :: rest).filter
        (fun x => !(x.2 == maxPlOf kv rest))).length < (kv :: rest).length :=
      length_filter_lt _ (kv :: rest) x0 hx0mem (by simp [hx0])
    have hstep : tieredSearchFuel stateEvents usersDefaultPl ((kv :: rest).length + 1)
        (kv :: rest) = tieredSearchFuel stateEvents usersDefaultPl ((kv :: rest).length)
          ((kv :: rest).filter (fun x => !(x.2 == maxPlOf kv rest))) := by
      simp [tieredSearchFuel, not_le.mpr hlt, hpe]
    unfold tieredSearch
    rw [hstep, hr _ hlen, hr _ (Nat.lt_succ_self _)]
  · intro cfg event stateEvents plContent r senderLevel hpm hpl hlast hsearch hne hsender
    have hok : onRoomLeave cfg event stateEvents
        = Except.ok [⟨event.roomId, event.sender, EventTypes.PowerLevels,
            dset "users" (PyVal.dict (r.foldl (fun acc u => dset u senderLevel acc)
              (usersOf plContent))) plContent, ""⟩] := by
      unfold onRoomLeave
      rw [hpl]
      simp only
      rw [if_neg (by simp [hlast])]
      rw [if_pos hpm]
      rw [hsearch]
      have hre : r.isEmpty = false := by
        cases hr2 : r with
        | nil => exact absurd hr2 hne
        | cons a l => rfl
      simp only [hre]
      rw [if_neg (by simp [hre])]
      unfold promoteToAdmins
      rw [hsender]
    exact ⟨hok, fun u hu => dget_foldl_dset_mem senderLevel r _ u hu⟩

/-- Witness for C8: in `stateMain`, with the leaving admin removed, the
maximal tier (the departed level-75 user) is dropped and the joined level-50
moderator is promoted; the resolver emits exactly one power-levels event
promoting the moderator to the leaving admin's former level (100). -/
theorem c8_witness :
    tieredSearch stateMain 0 [(uMod, 50), (uNothere, 75)] = [uMod]
    ∧ onRoomLeave cfgPromote (leaveEvt uAlice) stateMain
        = Except.ok [⟨roomMain, uAlice, EventTypes.PowerLevels,
            dset "users" (PyVal.dict (dset uMod (PyVal.int 100) usersMain))
              plContentMain, ""⟩] := by
  constructor
  · have h3 := c8_tiered_promotion.2.2.1 stateMain 0 (uMod, 50) [(uNothere, 75)]
      (by decide) (by rfl)
    have h2 := c8_tiered_promotion.2.1 stateMain 0 (uMod, 50) []
      (by decide) (by decide)
    rw [h3]
    exact h2
  · have h4 := (c8_tiered_promotion.2.2.2 cfgPromote (leaveEvt uAlice) stateMain
      plContentMain [uMod] (PyVal.int 100) rfl (by rfl) (by decide) (by rfl)
      (by decide) (by rfl)).1
    exact h4

end FreezeRoom
